import Mathlib

/-!
Verification of the fit-scoring and ranking engine of the
Ontology-Based-Big-Five-Personality-for-Job-Recommendation repository.

The Python scoring code (src/app_interface.py, src/calculate_bigfive.py,
src/rank_applicants.py, src/scripts/rank_top10.py) is shallowly embedded:
Python floats are modelled as rationals (ℚ), dictionaries as functions into
`Option`, Python's `round(x, n)` as rounding `x * 10^n` to the nearest
integer, and Python truthiness of optional strings explicitly.  Ontology
lookups (`get_job_required_skills`) are external I/O; their results are
passed as explicit list parameters.
-/

/-- Python's `round(x, 2)` modelled on ℚ: round `x*100` to the nearest
integer, then divide by 100.  (For every concrete value this development
evaluates, the scaled argument is never exactly halfway between two
integers, so the tie-breaking convention is irrelevant.) -/
def round2 (q : ℚ) : ℚ := (round (q * 100) : ℤ) / 100

/-- Python's `round(x, 1)` modelled on ℚ. -/
def round1 (q : ℚ) : ℚ := (round (q * 10) : ℤ) / 10

/-- Python truthiness of an optional string: `None` and `""` are falsy. -/
def pyTruthy : Option String → Bool
  | none => false
  | some s => !(s == "")

/-- Python's `int()` truncation toward zero on a rational. -/
def pyInt (q : ℚ) : ℤ := if 0 ≤ q then ⌊q⌋ else -⌊-q⌋

/-- `str.lower()` on a string (ASCII case folding, as used for skill names). -/
def toLowerStr (s : String) : String := ⟨s.data.map Char.toLower⟩

/-- `job.replace(" ", "").replace("_", "").lower()` from
`calculate_overall_fit_score` (src/app_interface.py line 860). -/
def normalizeJobName (s : String) : String :=
  ⟨(s.data.filter (fun c => c ≠ ' ' ∧ c ≠ '_')).map Char.toLower⟩

/-! ## Traits and trait aggregation -/

/-- The five Big Five traits. -/
inductive Trait
  | openness
  | conscientiousness
  | extraversion
  | agreeableness
  | neuroticism
deriving DecidableEq

/-- The five traits in the order used by both Python `TRAIT_MAPPING` dicts. -/
def allTraits : List Trait :=
  [.openness, .conscientiousness, .extraversion, .agreeableness, .neuroticism]

/-- A trait-score dictionary: a trait is either absent or has a value. -/
def TraitScores : Type := Trait → Option ℚ

/-- The values present in a trait-score dictionary
(`applicant['scores'].values()`), in the fixed trait order. -/
def presentValues (ts : TraitScores) : List ℚ := allTraits.filterMap ts

/-- `TRAIT_MAPPING` of src/calculate_bigfive.py lines 14–20:
Agreeableness→Q1–6, Conscientiousness→Q7–12, Extraversion→Q13–18,
Neuroticism→Q19–24, Openness→Q25–30. -/
def traitMappingCB : Trait → List ℕ
  | .agreeableness => [1, 2, 3, 4, 5, 6]
  | .conscientiousness => [7, 8, 9, 10, 11, 12]
  | .extraversion => [13, 14, 15, 16, 17, 18]
  | .neuroticism => [19, 20, 21, 22, 23, 24]
  | .openness => [25, 26, 27, 28, 29, 30]

/-- `TRAIT_MAPPING` of src/app_interface.py lines 64–70:
Openness→Q1–6, Conscientiousness→Q7–12, Extraversion→Q13–18,
Agreeableness→Q19–24, Neuroticism→Q25–30. -/
def traitMappingApp : Trait → List ℕ
  | .openness => [1, 2, 3, 4, 5, 6]
  | .conscientiousness => [7, 8, 9, 10, 11, 12]
  | .extraversion => [13, 14, 15, 16, 17, 18]
  | .agreeableness => [19, 20, 21, 22, 23, 24]
  | .neuroticism => [25, 26, 27, 28, 29, 30]

/-- The shared aggregation body of `calculate_trait_scores`
(src/calculate_bigfive.py lines 53–65) and `calculate_big_five`
(src/app_interface.py lines 286–298): collect the answered questions of the
trait's block, and if any exist return their mean rounded to 2 decimals. -/
def traitAggregate (mapping : Trait → List ℕ) (answers : ℕ → Option ℤ)
    (t : Trait) : Option ℚ :=
  let scores := (mapping t).filterMap answers
  if scores.isEmpty then none
  else some (round2 ((scores.sum : ℚ) / (scores.length : ℚ)))

/-- `calculate_trait_scores` of src/calculate_bigfive.py. -/
def calculate_trait_scores (answers : ℕ → Option ℤ) : TraitScores :=
  traitAggregate traitMappingCB answers

/-- `calculate_big_five` of src/app_interface.py. -/
def calculate_big_five (answers : ℕ → Option ℤ) : TraitScores :=
  traitAggregate traitMappingApp answers

/-! ## Skill matching -/

/-- `matched` list of `calculate_skill_match` (src/app_interface.py line 280)
and of the skill component of `calculate_overall_fit_score` (line 918):
applicant skills whose lowercase form occurs among the lowercased required
skills. -/
def matchedSkills (requiredAll applicantAll : List String) : List String :=
  applicantAll.filter (fun s => (requiredAll.map toLowerStr).contains (toLowerStr s))

/-- `missing` list of `calculate_skill_match` (src/app_interface.py
line 281): required skills whose lowercase form is absent from the
lowercased applicant skills. -/
def missingSkills (requiredAll applicantAll : List String) : List String :=
  requiredAll.filter (fun s => !((applicantAll.map toLowerStr).contains (toLowerStr s)))

/-- `additional_skills` of `calculate_overall_fit_score`
(src/app_interface.py line 920): applicant skills not among the required
ones. -/
def additionalSkills (requiredAll applicantAll : List String) : List String :=
  applicantAll.filter (fun s => !((requiredAll.map toLowerStr).contains (toLowerStr s)))

/-- Result triple of `calculate_skill_match`: the rounded match percentage
and the matched/missing lists. -/
structure SkillMatchResult where
  percentage : ℚ
  matched : List String
  missing : List String
deriving DecidableEq

/-- `calculate_skill_match` of src/app_interface.py lines 267–284.  The
required skill lists stand for `get_job_required_skills(job_name)`, an
ontology lookup made only when `job_name` is truthy. -/
def calculate_skill_match (applicantSkills applicantSoftSkills : List String)
    (jobName : Option String) (requiredHard requiredSoft : List String) :
    SkillMatchResult :=
  if !(pyTruthy jobName) then ⟨0, [], []⟩
  else
    let allRequired := requiredHard ++ requiredSoft
    let allApplicant := applicantSkills ++ applicantSoftSkills
    if allRequired.isEmpty then ⟨100, allApplicant, []⟩
    else
      ⟨round1 (((matchedSkills allRequired allApplicant).length : ℚ) /
          (allRequired.length : ℚ) * 100),
        matchedSkills allRequired allApplicant,
        missingSkills allRequired allApplicant⟩

/-- `calculate_skills_match` of src/rank_applicants.py lines 156–171: the
four arguments are Python sets (modelled as duplicate-free lists);
intersection is exact string equality (no case folding). -/
def calculate_skills_match (personHard personSoft jobHard jobSoft : List String) : ℚ :=
  if jobHard.isEmpty && jobSoft.isEmpty then 100
  else
    let totalRequired := jobHard.length + jobSoft.length
    let hardMatched := (personHard.filter (fun s => jobHard.contains s)).length
    let softMatched := (personSoft.filter (fun s => jobSoft.contains s)).length
    let totalMatched := hardMatched + softMatched
    round2 (if 0 < totalRequired then ((totalMatched : ℚ) / totalRequired) * 100 else 0)

/-- `calculate_experience_score` of src/rank_applicants.py lines 173–185
(the 50–100 banded scorer of the ranking path); `6.67` is the literal from
the source. -/
def calculate_experience_score (years : ℚ) : ℚ :=
  if years ≤ 2 then 50 + years * 10
  else if years ≤ 5 then 70 + (years - 2) * (667 / 100)
  else min 100 (90 + (years - 5) * 2)

/-! ## The overall fit score (src/app_interface.py lines 855–955) -/

/-- The `breakdown` dictionary built by `calculate_overall_fit_score`. -/
structure Breakdown where
  personality : ℚ
  category_fit : ℚ
  skill_match : ℚ
  matched_skills : Option ℕ
  required_skills : Option ℕ
  experience : ℚ
  years_experience : ℚ
deriving DecidableEq

/-- The applicant dictionary fields read (and the one written) by
`calculate_overall_fit_score`. -/
structure Applicant where
  scores : TraitScores
  hard_skills : List String
  soft_skills : List String
  JobOccupation : Option String
  job_field : Option String
  years_experience : ℚ
  score_breakdown : Option Breakdown

/-- `analytical_roles` set literal (src/app_interface.py lines 862–865). -/
def analytical_roles : List String :=
  ["dataanalyst", "datascientist", "productmanager", "uxresearcher",
   "securityanalyst", "financeanalyst", "financialanalyst"]

/-- `technical_roles` set literal (src/app_interface.py lines 866–869). -/
def technical_roles : List String :=
  ["softwareengineer", "devopsengineer", "qaengineer", "uiuxdesigner",
   "taxofficer", "dataengineer", "backenddeveloper", "frontenddeveloper"]

/-- `support_roles` set literal (src/app_interface.py line 870). -/
def support_roles : List String :=
  ["customersuccess", "customersupport", "hrmanager", "peopleandculture",
   "customersupportjob"]

/-- `writing_roles` set literal (src/app_interface.py line 871). -/
def writing_roles : List String :=
  ["contentwriter", "copywriter", "uxwriter", "contentstrategist"]

/-- `interpersonal_roles` set literal (src/app_interface.py line 872). -/
def interpersonal_roles : List String :=
  ["salesmanager", "accountmanager", "accountmanagerjob", "communitymanager"]

/-- `normalized_job` (src/app_interface.py line 860). -/
def normalizedJob (a : Applicant) : String :=
  match a.JobOccupation with
  | some j => normalizeJobName j
  | none => ""

/-- Personality component before rounding (src/app_interface.py
lines 874–881): 0 when no trait is present, else `(mean / 5) * 25`. -/
def personality_component (a : Applicant) : ℚ :=
  let vs := presentValues a.scores
  if vs.isEmpty then 0 else (vs.sum / vs.length / 5) * 25

/-- Category-fit component before rounding (src/app_interface.py
lines 882–904).  Missing traits default to 0 via `.get(trait, 0)`, except
Neuroticism in the analytical branch, which defaults to 5. -/
def category_component (a : Applicant) : ℚ :=
  let nj := normalizedJob a
  if (presentValues a.scores).isEmpty || (nj == "") then 0
  else if analytical_roles.contains nj then
    ((a.scores .conscientiousness).getD 0 / 5) * 8 +
      ((a.scores .openness).getD 0 / 5) * 8 +
      ((5 - (a.scores .neuroticism).getD 5) / 5) * 4
  else if technical_roles.contains nj then
    ((a.scores .conscientiousness).getD 0 / 5) * 12 +
      ((a.scores .openness).getD 0 / 5) * 8
  else if support_roles.contains nj then
    ((a.scores .agreeableness).getD 0 / 5) * 10 +
      ((a.scores .extraversion).getD 0 / 5) * 10
  else if writing_roles.contains nj then
    ((a.scores .openness).getD 0 / 5) * 15 +
      ((a.scores .conscientiousness).getD 0 / 5) * 5
  else if interpersonal_roles.contains nj then
    ((a.scores .extraversion).getD 0 / 5) * 12 +
      ((a.scores .agreeableness).getD 0 / 5) * 8
  else
    ((presentValues a.scores).sum / ((presentValues a.scores).length : ℚ) / 5) * 20

/-- Skill component before rounding (src/app_interface.py lines 908–936),
together with the `matched_skills` / `required_skills` counts recorded in
the breakdown (present only in the required-skills branch).  The required
lists stand for the `get_job_required_skills(JobOccupation)` lookup. -/
def skill_component (requiredHard requiredSoft : List String) (a : Applicant) :
    ℚ × Option ℕ × Option ℕ :=
  if pyTruthy a.JobOccupation then
    let allRequired := requiredHard ++ requiredSoft
    let allApplicant := a.hard_skills ++ a.soft_skills
    if !allRequired.isEmpty then
      let matched := matchedSkills allRequired allApplicant
      let matchedScore := ((matched.length : ℚ) / (allRequired.length : ℚ)) * 20
      let additionalScore := min (((additionalSkills allRequired allApplicant).length : ℚ) * (1 / 2)) 10
      let proficiencyBonus : ℚ :=
        if (allRequired.length : ℚ) * (8 / 10) ≤ (matched.length : ℚ) then 5 else 0
      (matchedScore + additionalScore + proficiencyBonus,
        some matched.length, some allRequired.length)
    else
      (min ((allApplicant.length : ℚ) * (3 / 2)) 35, none, none)
  else (0, none, none)

/-- Experience component before rounding (src/app_interface.py
lines 938–951). -/
def experience_component (a : Applicant) : ℚ :=
  let yearsScore := min (a.years_experience / 10 * 10) 10
  let relevantBonus : ℚ :=
    if 1 ≤ a.years_experience ∧ pyTruthy a.job_field ∧ pyTruthy a.JobOccupation
    then 10
    else if 2 ≤ a.years_experience then 5 else 0
  yearsScore + relevantBonus

/-- The `breakdown` dictionary assembled by `calculate_overall_fit_score`:
each component rounded to 2 decimals, plus the matched/required counts and
the raw years of experience. -/
def fit_breakdown (requiredHard requiredSoft : List String) (a : Applicant) :
    Breakdown :=
  { personality := round2 (personality_component a)
    category_fit := round2 (category_component a)
    skill_match := round2 (skill_component requiredHard requiredSoft a).1
    matched_skills := (skill_component requiredHard requiredSoft a).2.1
    required_skills := (skill_component requiredHard requiredSoft a).2.2
    experience := round2 (experience_component a)
    years_experience := a.years_experience }

/-- `calculate_overall_fit_score` of src/app_interface.py lines 855–955.
Returns the rounded total and the applicant with `score_breakdown` written
back (the function's one mutation of its input dictionary). -/
def calculate_overall_fit_score (requiredHard requiredSoft : List String)
    (a : Applicant) : ℚ × Applicant :=
  (round2 (personality_component a + category_component a +
      (skill_component requiredHard requiredSoft a).1 + experience_component a),
    { a with score_breakdown := some (fit_breakdown requiredHard requiredSoft a) })

/-! ## Rule-based role classification (src/app_interface.py lines 816–832) -/

/-- The five qualitative fit categories of `get_all_applicants`. -/
inductive RoleCategory
  | analytical
  | technical
  | support
  | writing
  | interpersonal
deriving DecidableEq

/-- The `if`/`elif` category chain of `get_all_applicants`
(src/app_interface.py lines 816–832): guarded by a non-empty score
dictionary; each trait read via `.get(trait, 0)`. -/
def classify_applicant (ts : TraitScores) : Option RoleCategory :=
  if (presentValues ts).isEmpty then none
  else
    let o := (ts .openness).getD 0
    let c := (ts .conscientiousness).getD 0
    let e := (ts .extraversion).getD 0
    let a := (ts .agreeableness).getD 0
    let n := (ts .neuroticism).getD 0
    if 4 ≤ c ∧ 9 / 2 ≤ o ∧ n ≤ 5 / 2 then some .analytical
    else if 3 ≤ c then some .technical
    else if 4 ≤ a ∧ 7 / 2 ≤ e then some .support
    else if 4 ≤ o then some .writing
    else if 4 ≤ e then some .interpersonal
    else none

/-- A threshold of the form `trait ≥ c` under the claim's reading that a
missing trait fails every threshold referencing it. -/
def meetsGE (ts : TraitScores) (t : Trait) (c : ℚ) : Bool :=
  match ts t with
  | none => false
  | some v => decide (c ≤ v)

/-- A threshold of the form `trait ≤ c` under the claim's reading that a
missing trait fails every threshold referencing it. -/
def meetsLE (ts : TraitScores) (t : Trait) (c : ℚ) : Bool :=
  match ts t with
  | none => false
  | some v => decide (v ≤ c)

/-- The claim's reading of the classifier, for comparison with
`classify_applicant`: the same six-rule priority list, but with every
missing trait failing any threshold that references it. -/
def classifySpecMissingFails (ts : TraitScores) : Option RoleCategory :=
  if (presentValues ts).isEmpty then none
  else if meetsGE ts .conscientiousness 4 && meetsGE ts .openness (9 / 2) &&
      meetsLE ts .neuroticism (5 / 2) then some .analytical
  else if meetsGE ts .conscientiousness 3 then some .technical
  else if meetsGE ts .agreeableness 4 && meetsGE ts .extraversion (7 / 2) then some .support
  else if meetsGE ts .openness 4 then some .writing
  else if meetsGE ts .extraversion 4 then some .interpersonal
  else none

/-! ## Ranking (src/rank_applicants.py lines 238–266, src/scripts/rank_top10.py) -/

/-- One scored entry of a ranking run. -/
structure RankedEntry where
  name : String
  total_score : ℚ
deriving DecidableEq

/-- Insert an entry into a descending-sorted list, before the first entry
whose score is `≤` its own (so earlier input entries precede equal-scored
later ones). -/
def insertDesc (e : RankedEntry) : List RankedEntry → List RankedEntry
  | [] => [e]
  | x :: xs => if x.total_score ≤ e.total_score then e :: x :: xs else x :: insertDesc e xs

/-- Stable descending sort by `total_score`: the extensional behaviour of
Python's stable `sorted(results, key=lambda x: x['total_score'],
reverse=True)` (src/rank_applicants.py line 241). -/
def sortDesc : List RankedEntry → List RankedEntry
  | [] => []
  | x :: xs => insertDesc x (sortDesc xs)

/-- `determine_top_percentage` of src/rank_applicants.py lines 238–266:
`threshold` is a percentage (default 10); the cutoff is
`max(1, int(N * (threshold / 100)))` — `int()` truncation, not `ceil` —
and the function returns `sorted_results[:top_count]`. -/
def determine_top_percentage (results : List RankedEntry) (threshold : ℚ) :
    List RankedEntry :=
  let sortedResults := sortDesc results
  let topCount := (max 1 (pyInt ((results.length : ℚ) * (threshold / 100)))).toNat
  sortedResults.take topCount

/-- The cutoff `k = max(1, math.ceil(len(rows) * 0.10))` of
src/scripts/rank_top10.py line 69 (the float literal `0.10` modelled as
`1/10`). -/
def rank_top10_count (n : ℕ) : ℕ :=
  (max 1 ⌈(n : ℚ) * (1 / 10)⌉).toNat

/-! ## Helper lemmas -/

theorem round_le_round {x y : ℚ} (h : x ≤ y) : round x ≤ round y := by
  rw [round_eq, round_eq]
  exact Int.floor_mono (by linarith)

theorem round_intCast_q (n : ℤ) : round ((n : ℚ)) = n := by
  rw [round_eq]
  rw [add_comm]
  rw [Int.floor_add_int]
  norm_num

theorem round2_le_of_le {x : ℚ} {n : ℤ} (h : x ≤ (n : ℚ)) : round2 x ≤ (n : ℚ) := by
  have h1 : round (x * 100) ≤ round ((n : ℚ) * 100) := round_le_round (by linarith)
  have h2 : round (((n : ℚ)) * 100) = n * 100 := by
    have e : ((n : ℚ)) * 100 = ((n * 100 : ℤ) : ℚ) := by push_cast; ring
    rw [e, round_intCast_q]
  rw [h2] at h1
  rw [round2]
  rw [div_le_iff (by norm_num : (0:ℚ) < 100)]
  exact_mod_cast h1

theorem le_round2_of_le {x : ℚ} {n : ℤ} (h : (n : ℚ) ≤ x) : (n : ℚ) ≤ round2 x := by
  have h1 : round ((n : ℚ) * 100) ≤ round (x * 100) := round_le_round (by linarith)
  have h2 : round (((n : ℚ)) * 100) = n * 100 := by
    have e : ((n : ℚ)) * 100 = ((n * 100 : ℤ) : ℚ) := by push_cast; ring
    rw [e, round_intCast_q]
  rw [h2] at h1
  rw [round2]
  rw [le_div_iff (by norm_num : (0:ℚ) < 100)]
  exact_mod_cast h1

theorem insertDesc_length (e : RankedEntry) (l : List RankedEntry) :
    (insertDesc e l).length = l.length + 1 := by
  induction l with
  | nil => rfl
  | cons x xs ih =>
    rw [insertDesc]
    split
    · simp
    · simp [ih]

theorem sortDesc_length (l : List RankedEntry) : (sortDesc l).length = l.length := by
  induction l with
  | nil => rfl
  | cons x xs ih =>
    rw [sortDesc, insertDesc_length, ih, List.length_cons]

theorem filterMap_of_all_isSome (f : ℕ → Option ℤ) :
    ∀ l : List ℕ, (∀ q ∈ l, (f q).isSome) →
      l.filterMap f = l.map (fun q => (f q).getD 0) := by
  intro l
  induction l with
  | nil => intro _; rfl
  | cons x xs ih =>
    intro h
    have hx : (f x).isSome := h x (List.mem_cons_self x xs)
    obtain ⟨v, hv⟩ := Option.isSome_iff_exists.mp hx
    rw [List.filterMap_cons, List.map_cons, hv]
    simp only [Option.getD_some]
    rw [ih (fun q hq => h q (List.mem_cons_of_mem x hq))]

theorem sum_le_of_forall_le {l : List ℚ} (h : ∀ v ∈ l, 1 ≤ v ∧ v ≤ 5) :
    (l.length : ℚ) ≤ l.sum ∧ l.sum ≤ 5 * l.length := by
  induction l with
  | nil => simp
  | cons x xs ih =>
    have hx := h x (List.mem_cons_self x xs)
    have hxs := ih (fun v hv => h v (List.mem_cons_of_mem x hv))
    simp only [List.sum_cons, List.length_cons]
    push_cast
    constructor
    · linarith [hxs.1, hx.1]
    · linarith [hxs.2, hx.2]

theorem mean_bounds {l : List ℚ} (hne : ¬ l.isEmpty) (h : ∀ v ∈ l, 1 ≤ v ∧ v ≤ 5) :
    1 ≤ l.sum / (l.length : ℚ) ∧ l.sum / (l.length : ℚ) ≤ 5 := by
  have hlen : 0 < l.length := by
    cases l with
    | nil => simp at hne
    | cons x xs => simp
  have hlenq : (0 : ℚ) < (l.length : ℚ) := by exact_mod_cast hlen
  have hs := sum_le_of_forall_le h
  constructor
  · rw [le_div_iff hlenq]
    linarith [hs.1]
  · rw [div_le_iff hlenq]
    linarith [hs.2]

theorem presentValues_mem_bounds {ts : TraitScores}
    (h : ∀ t v, ts t = some v → 1 ≤ v ∧ v ≤ 5) :
    ∀ v ∈ presentValues ts, 1 ≤ v ∧ v ≤ 5 := by
  intro v hv
  rw [presentValues, List.mem_filterMap] at hv
  obtain ⟨t, _, ht⟩ := hv
  exact h t v ht

/-- `1 ≤ v ∧ v ≤ 5` bounds transported to the `.get(trait, 0)` default. -/
theorem getD_zero_bounds {ts : TraitScores}
    (h : ∀ t v, ts t = some v → 1 ≤ v ∧ v ≤ 5) (t : Trait) :
    0 ≤ (ts t).getD 0 ∧ (ts t).getD 0 ≤ 5 := by
  cases hts : ts t with
  | none => simp
  | some v =>
    have := h t v hts
    simp only [Option.getD_some]
    constructor <;> linarith [this.1, this.2]

/-- `1 ≤ v ∧ v ≤ 5` bounds transported to the `.get('Neuroticism', 5)`
default of the analytical branch. -/
theorem getD_five_bounds {ts : TraitScores}
    (h : ∀ t v, ts t = some v → 1 ≤ v ∧ v ≤ 5) (t : Trait) :
    1 ≤ (ts t).getD 5 ∧ (ts t).getD 5 ≤ 5 := by
  cases hts : ts t with
  | none => simp
  | some v =>
    have := h t v hts
    simp only [Option.getD_some]
    constructor <;> linarith [this.1, this.2]

/-! ## C10 -/

/-- C10: for every integer `years ≥ 0` the `calculate_experience_score` of
src/rank_applicants.py returns a value in `[50, 100]`; zero years of
experience yields 50 (never 0), so with the 20% weight of the ranking
formula the experience term contributes at least 10 points to every
weighted total. -/
theorem calculate_experience_score_banded :
    (∀ y : ℕ, 50 ≤ calculate_experience_score (y : ℚ) ∧
      calculate_experience_score (y : ℚ) ≤ 100 ∧
      10 ≤ calculate_experience_score (y : ℚ) * (2 / 10)) ∧
    calculate_experience_score 0 = 50 := by
  constructor
  · intro y
    have hy : (0 : ℚ) ≤ (y : ℚ) := by positivity
    rw [calculate_experience_score]
    by_cases h1 : (y : ℚ) ≤ 2
    · rw [if_pos h1]
      refine ⟨by linarith, by linarith, by linarith⟩
    · rw [if_neg h1]
      by_cases h2 : (y : ℚ) ≤ 5
      · rw [if_pos h2]
        have h3 : (3 : ℚ) ≤ (y : ℚ) := by
          have : (2 : ℚ) < (y : ℚ) := lt_of_not_le h1
          have h2y : 2 < y := by exact_mod_cast this
          have h3y : 3 ≤ y := h2y
          exact_mod_cast h3y
        refine ⟨by linarith, by linarith, by linarith⟩
      · rw [if_neg h2]
        have h5 : (5 : ℚ) ≤ (y : ℚ) := le_of_lt (lt_of_not_le h2)
        have hmin1 : (50 : ℚ) ≤ min 100 (90 + ((y : ℚ) - 5) * 2) :=
          le_min (by norm_num) (by linarith)
        have hmin2 : min 100 (90 + ((y : ℚ) - 5) * 2) ≤ 100 := min_le_left _ _
        refine ⟨hmin1, hmin2, by linarith⟩
  · rw [calculate_experience_score]
    norm_num

/-! ## C6 -/

/-- C6: the experience component of `calculate_overall_fit_score`
(src/app_interface.py lines 938–951) equals `min(years, 10)` plus a
relevance bonus of +10 when `years ≥ 1` and both `job_field` and the job
are present (truthy), else +5 when `years ≥ 2`, else +0; it always lies in
`[0, 20]`, and `years_experience = 0` with `job_field = None` yields 0. -/
theorem experience_component_spec :
    (∀ a : Applicant, 0 ≤ a.years_experience →
      (experience_component a =
        min a.years_experience 10 +
          (if 1 ≤ a.years_experience ∧ pyTruthy a.job_field ∧ pyTruthy a.JobOccupation
            then 10 else if 2 ≤ a.years_experience then 5 else 0) ∧
      0 ≤ experience_component a ∧ experience_component a ≤ 20)) ∧
    (∀ a : Applicant, a.years_experience = 0 → a.job_field = none →
      experience_component a = 0) := by
  constructor
  · intro a hy
    have hdiv : a.years_experience / 10 * 10 = a.years_experience := by ring
    rw [experience_component, hdiv]
    refine ⟨rfl, ?_, ?_⟩
    · have h1 : (0 : ℚ) ≤ min a.years_experience 10 := le_min hy (by norm_num)
      split_ifs <;> linarith
    · have h2 : min a.years_experience 10 ≤ 10 := min_le_right _ _
      split_ifs <;> linarith
  · intro a hy hjf
    rw [experience_component, hy, hjf]
    norm_num [pyTruthy]

/-! ## C4 -/

/-- C4 (amended): the two trait aggregations share the block structure and
the mean computation, and agree on Conscientiousness (Q7–12) and
Extraversion (Q13–18) for every answer map; but the remaining three blocks
are assigned to different traits — calculate_bigfive.py's Agreeableness
(Q1–6) is app_interface.py's Openness, its Neuroticism (Q19–24) is
app_interface.py's Agreeableness, and its Openness (Q25–30) is
app_interface.py's Neuroticism — so the two returned dictionaries are not
equal in general. -/
theorem trait_mappings_correspondence :
    ∀ answers : ℕ → Option ℤ,
      calculate_trait_scores answers .conscientiousness =
          calculate_big_five answers .conscientiousness ∧
      calculate_trait_scores answers .extraversion =
          calculate_big_five answers .extraversion ∧
      calculate_trait_scores answers .agreeableness =
          calculate_big_five answers .openness ∧
      calculate_trait_scores answers .neuroticism =
          calculate_big_five answers .agreeableness ∧
      calculate_trait_scores answers .openness =
          calculate_big_five answers .neuroticism := by
  intro answers
  exact ⟨rfl, rfl, rfl, rfl, rfl⟩

/-- The answer map refuting C4: questions 1–6 score 5, questions 7–30
score 1. -/
def exAnswersC4 : ℕ → Option ℤ := fun q =>
  if 1 ≤ q ∧ q ≤ 6 then some 5 else if 7 ≤ q ∧ q ≤ 30 then some 1 else none

/-- C4 counterexample: on `exAnswersC4`, `calculate_trait_scores`
(src/calculate_bigfive.py) gives Agreeableness = 5.00 while
`calculate_big_five` (src/app_interface.py) gives Agreeableness = 1.00, so
the two aggregations do not return identical TraitScores mappings. -/
theorem trait_mappings_differ :
    calculate_trait_scores exAnswersC4 Trait.agreeableness = some 5 ∧
    calculate_big_five exAnswersC4 Trait.agreeableness = some 1 ∧
    calculate_trait_scores exAnswersC4 ≠ calculate_big_five exAnswersC4 := by
  have h1 : calculate_trait_scores exAnswersC4 Trait.agreeableness = some 5 := by
    rw [calculate_trait_scores, traitAggregate]
    norm_num [traitMappingCB, exAnswersC4, List.filterMap, round2, round_eq]
  have h2 : calculate_big_five exAnswersC4 Trait.agreeableness = some 1 := by
    rw [calculate_big_five, traitAggregate]
    norm_num [traitMappingApp, exAnswersC4, List.filterMap, round2, round_eq]
  refine ⟨h1, h2, fun h => ?_⟩
  have := congrFun h Trait.agreeableness
  rw [h1, h2] at this
  simp at this

/-! ## C9 -/

/-- C9: `calculate_overall_fit_score` is deterministic and idempotent: its
only effect on the applicant dictionary is writing `score_breakdown`, which
the computation never reads, so invoking it again on the updated applicant
yields the identical total and the identical breakdown. -/
theorem calculate_overall_fit_score_idempotent :
    ∀ (requiredHard requiredSoft : List String) (a : Applicant),
      calculate_overall_fit_score requiredHard requiredSoft
          (calculate_overall_fit_score requiredHard requiredSoft a).2 =
        calculate_overall_fit_score requiredHard requiredSoft a := by
  intro rh rs a
  rfl

/-! ## C2 -/

/-- C2 (amended): `determine_top_percentage` (src/rank_applicants.py) takes
its threshold as a percentage and truncates: it returns
`min(N, max(1, int(N * threshold/100)))` entries — `int()` truncation
(floor for non-negative values), not `ceil` — so for `N = 25` at 10% it
returns 2 entries, not 3.  The separate script src/scripts/rank_top10.py
does use `k = max(1, ceil(N * 0.10))`, giving `k = 1` for `N = 1` and
`k = 3` for `N = 25`. -/
theorem determine_top_percentage_count :
    (∀ (results : List RankedEntry) (threshold : ℚ), 0 ≤ threshold → results ≠ [] →
      (determine_top_percentage results threshold).length =
        min ((max 1 ⌊(results.length : ℚ) * (threshold / 100)⌋).toNat) results.length) ∧
    rank_top10_count 1 = 1 ∧ rank_top10_count 25 = 3 := by
  refine ⟨?_, ?_, ?_⟩
  · intro results t ht _hne
    have hq : 0 ≤ (results.length : ℚ) * (t / 100) := by positivity
    simp only [determine_top_percentage, List.length_take, sortDesc_length, pyInt,
      if_pos hq]
  · have hc : ⌈((1 : ℕ) : ℚ) * (1 / 10)⌉ = 1 := by
      rw [Int.ceil_eq_iff] <;> norm_num
    rw [rank_top10_count, hc]
    decide
  · have hc : ⌈((25 : ℕ) : ℚ) * (1 / 10)⌉ = 3 := by
      rw [Int.ceil_eq_iff] <;> norm_num
    rw [rank_top10_count, hc]
    decide

/-- Witness for C2's amended theorem at a singleton list and threshold 10%. -/
theorem determine_top_percentage_count_witness :
    (determine_top_percentage [⟨"a", 1⟩] 10).length =
      min ((max 1 ⌊(([⟨"a", (1 : ℚ)⟩] : List RankedEntry).length : ℚ) * (10 / 100)⌋).toNat)
        ([⟨"a", (1 : ℚ)⟩] : List RankedEntry).length :=
  determine_top_percentage_count.1 [⟨"a", 1⟩] 10 (by norm_num) (by simp)

/-- The 25-entry scored list refuting C2 (scores 0, 1, …, 24). -/
def exEntries25 : List RankedEntry := (List.range 25).map (fun i => ⟨"p", (i : ℚ)⟩)

/-- C2 counterexample: with `N = 25` and threshold 10%,
`determine_top_percentage` returns 2 entries, while the claimed cutoff
`max(1, ceil(N * 0.10))` is 3. -/
theorem determine_top_percentage_not_ceil :
    (determine_top_percentage exEntries25 10).length = 2 ∧
    (max 1 ⌈(25 : ℚ) * (10 / 100)⌉).toNat = 3 ∧ (2 : ℕ) ≠ 3 := by
  refine ⟨?_, ?_, by decide⟩
  · have hlen : exEntries25.length = 25 := by decide
    have hq : pyInt ((25 : ℚ) * (10 / 100)) = 2 := by
      rw [pyInt, if_pos (by norm_num)]
      norm_num
    simp only [determine_top_percentage, List.length_take, sortDesc_length, hlen,
      Nat.cast_ofNat]
    rw [hq]
    decide
  · have hc : ⌈(25 : ℚ) * (10 / 100)⌉ = 3 := by
      rw [Int.ceil_eq_iff] <;> norm_num
    rw [hc]
    decide

/-! ## C3 -/

theorem mem_matchedSkills {requiredAll applicantAll : List String} {s : String} :
    s ∈ matchedSkills requiredAll applicantAll ↔
      s ∈ applicantAll ∧ toLowerStr s ∈ requiredAll.map toLowerStr := by
  simp [matchedSkills, List.mem_filter, List.contains, List.elem_iff]

theorem mem_missingSkills {requiredAll applicantAll : List String} {s : String} :
    s ∈ missingSkills requiredAll applicantAll ↔
      s ∈ requiredAll ∧ toLowerStr s ∉ applicantAll.map toLowerStr := by
  simp [missingSkills, List.mem_filter, List.contains, List.elem_iff]

/-- C3 (amended): `calculate_skill_match` (src/app_interface.py) behaves as
claimed whenever the required set is non-empty — `matched` holds exactly
the applicant skills whose lowercase form appears among the lowercased
required skills, `missing` the required skills whose lowercase form is
absent from the applicant's, and the percentage is
`|matched| / |required| * 100` (rounded to 1 decimal); the documented
scenario gives `(["python"], ["SQL"], 50.0)`.  When the required set is
empty the percentage is 100 but `matched` is the full applicant list (not
the empty list the claim's matched-rule predicts), and `missing = []`. -/
theorem calculate_skill_match_spec :
    (∀ (aHard aSoft rHard rSoft : List String) (job : Option String),
      pyTruthy job = true → (rHard ++ rSoft) ≠ [] →
      calculate_skill_match aHard aSoft job rHard rSoft =
        ⟨round1 (((matchedSkills (rHard ++ rSoft) (aHard ++ aSoft)).length : ℚ) /
            (((rHard ++ rSoft).length : ℚ)) * 100),
          matchedSkills (rHard ++ rSoft) (aHard ++ aSoft),
          missingSkills (rHard ++ rSoft) (aHard ++ aSoft)⟩ ∧
      (∀ s, s ∈ (calculate_skill_match aHard aSoft job rHard rSoft).matched ↔
          s ∈ aHard ++ aSoft ∧ toLowerStr s ∈ (rHard ++ rSoft).map toLowerStr) ∧
      (∀ s, s ∈ (calculate_skill_match aHard aSoft job rHard rSoft).missing ↔
          s ∈ rHard ++ rSoft ∧ toLowerStr s ∉ (aHard ++ aSoft).map toLowerStr)) ∧
    (∀ (aHard aSoft : List String) (job : Option String), pyTruthy job = true →
      calculate_skill_match aHard aSoft job [] [] = ⟨100, aHard ++ aSoft, []⟩) ∧
    calculate_skill_match ["python", "excel"] [] (some "Job") ["Python", "SQL"] [] =
      ⟨50, ["python"], ["SQL"]⟩ := by
  have hbranch : ∀ (aHard aSoft rHard rSoft : List String) (job : Option String),
      pyTruthy job = true → (rHard ++ rSoft) ≠ [] →
      calculate_skill_match aHard aSoft job rHard rSoft =
        ⟨round1 (((matchedSkills (rHard ++ rSoft) (aHard ++ aSoft)).length : ℚ) /
            (((rHard ++ rSoft).length : ℚ)) * 100),
          matchedSkills (rHard ++ rSoft) (aHard ++ aSoft),
          missingSkills (rHard ++ rSoft) (aHard ++ aSoft)⟩ := by
    intro aHard aSoft rHard rSoft job hjob hne
    rw [calculate_skill_match, hjob]
    simp only [Bool.not_true, Bool.false_eq_true, if_false]
    rw [if_neg (by simpa [List.isEmpty_iff] using hne)]
  refine ⟨?_, ?_, ?_⟩
  · intro aHard aSoft rHard rSoft job hjob hne
    refine ⟨hbranch _ _ _ _ _ hjob hne, ?_, ?_⟩
    · intro s
      rw [hbranch _ _ _ _ _ hjob hne]
      exact mem_matchedSkills
    · intro s
      rw [hbranch _ _ _ _ _ hjob hne]
      exact mem_missingSkills
  · intro aHard aSoft job hjob
    rw [calculate_skill_match, hjob]
    simp only [Bool.not_true, Bool.false_eq_true, if_false, List.nil_append,
      List.isEmpty_nil, if_true]
  · rw [hbranch _ _ _ _ _ (by decide) (by decide)]
    have hm : matchedSkills (["Python", "SQL"] ++ []) (["python", "excel"] ++ []) =
        ["python"] := by decide
    have hmiss : missingSkills (["Python", "SQL"] ++ []) (["python", "excel"] ++ []) =
        ["SQL"] := by decide
    rw [hm, hmiss]
    have hpct : round1 (((["python"] : List String).length : ℚ) /
        (((["Python", "SQL"] ++ [] : List String).length : ℚ)) * 100) = 50 := by
      norm_num [round1, round_eq]
    rw [hpct]

/-- Witness for C3's amended theorem: non-empty required set
`{"SQL"}` against applicant skills `{"sql"}`, and the empty-required case. -/
theorem calculate_skill_match_spec_witness :
    calculate_skill_match ["sql"] [] (some "J") ["SQL"] [] =
      ⟨round1 (((matchedSkills (["SQL"] ++ []) (["sql"] ++ [])).length : ℚ) /
          (((["SQL"] ++ [] : List String).length : ℚ)) * 100),
        matchedSkills (["SQL"] ++ []) (["sql"] ++ []),
        missingSkills (["SQL"] ++ []) (["sql"] ++ [])⟩ ∧
    calculate_skill_match ["a"] [] (some "J") [] [] = ⟨100, ["a"] ++ [], []⟩ :=
  ⟨(calculate_skill_match_spec.1 ["sql"] [] ["SQL"] [] (some "J") (by decide)
      (by decide)).1,
    calculate_skill_match_spec.2.1 ["a"] [] (some "J") (by decide)⟩

/-- C3 counterexample: with an empty required set, `calculate_skill_match`
returns every applicant skill as `matched` (here `["excel"]`), while the
claim's matched-rule (lowercase membership in the empty required set)
yields `[]`; and for the claim's own scenario the duplicate matcher
`calculate_skills_match` of src/rank_applicants.py compares
case-sensitively and returns 0, not 50. -/
theorem calculate_skill_match_empty_required :
    (calculate_skill_match ["excel"] [] (some "Job") [] []).matched = ["excel"] ∧
    matchedSkills [] ["excel"] = [] ∧
    (["excel"] : List String) ≠ [] ∧
    calculate_skills_match ["python", "excel"] [] ["Python", "SQL"] [] = 0 := by
  refine ⟨by decide, by decide, by decide, ?_⟩
  have h : ((["python", "excel"] : List String).filter
      (fun s => (["Python", "SQL"] : List String).contains s)).length = 0 := by decide
  rw [calculate_skills_match]
  simp only [List.isEmpty_cons, Bool.false_and, Bool.false_eq_true, if_false, h]
  norm_num [round2, round_eq]

/-! ## C5 -/

theorem presentValues_isEmpty_false {ts : TraitScores} {t : Trait} {v : ℚ}
    (h : ts t = some v) : (presentValues ts).isEmpty = false := by
  have hmem : v ∈ presentValues ts :=
    List.mem_filterMap.mpr ⟨t, by cases t <;> simp [allTraits], h⟩
  cases hpe : (presentValues ts).isEmpty with
  | false => rfl
  | true =>
    rw [List.isEmpty_iff.mp hpe] at hmem
    simp at hmem

/-- C5 (amended): for an applicant whose TraitScores contain
Conscientiousness, Openness and Neuroticism and whose job normalizes into
`analytical_roles`, the category-fit component equals
`8·(C/5) + 8·(O/5) + 4·(1 − N/5)` — i.e. the inverted-Neuroticism term is
`((5 − N)/5)·4`, without the extra `·5` factor the claim states. -/
theorem category_component_analytical :
    ∀ (a : Applicant) (C O N : ℚ),
      a.scores .conscientiousness = some C →
      a.scores .openness = some O →
      a.scores .neuroticism = some N →
      analytical_roles.contains (normalizedJob a) = true →
      category_component a = 8 * (C / 5) + 8 * (O / 5) + 4 * (1 - N / 5) := by
  intro a C O N hC hO hN hrole
  have hne : (presentValues a.scores).isEmpty = false := presentValues_isEmpty_false hC
  have hjob : (normalizedJob a == "") = false := by
    have hmem : normalizedJob a ∈ analytical_roles := List.elem_iff.mp hrole
    simp only [analytical_roles, List.mem_cons, List.not_mem_nil, or_false] at hmem
    rcases hmem with h | h | h | h | h | h | h <;> rw [h] <;> rfl
  rw [category_component]
  simp only [hne, hjob, Bool.or_self, Bool.false_eq_true, if_false, hrole, if_true,
    hC, hO, hN, Option.getD_some]
  ring

/-- The applicant refuting the `·5` factor of C5: Conscientiousness = 5,
Openness = 5, Neuroticism = 1, applying to `DataAnalyst`. -/
def exApplicantC5 : Applicant :=
  { scores := fun t => match t with
      | .conscientiousness => some 5
      | .openness => some 5
      | .neuroticism => some 1
      | _ => none
    hard_skills := []
    soft_skills := []
    JobOccupation := some "DataAnalyst"
    job_field := none
    years_experience := 0
    score_breakdown := none }

/-- C5 counterexample: on `exApplicantC5` the code's category-fit component
is 19.2, while the claim's formula `8·(C/5) + 8·(O/5) + 4·(1 − N/5)·5`
evaluates to 32. -/
theorem category_component_analytical_value :
    category_component exApplicantC5 = 96 / 5 ∧
    8 * ((5 : ℚ) / 5) + 8 * ((5 : ℚ) / 5) + 4 * (1 - (1 : ℚ) / 5) * 5 = 32 ∧
    (96 / 5 : ℚ) ≠ 32 := by
  refine ⟨?_, by norm_num, by norm_num⟩
  have hne : (presentValues exApplicantC5.scores).isEmpty = false := by decide
  have hjob : (normalizedJob exApplicantC5 == "") = false := by decide
  have hrole : analytical_roles.contains (normalizedJob exApplicantC5) = true := by decide
  rw [category_component]
  simp only [hne, hjob, Bool.or_self, Bool.false_eq_true, if_false, hrole, if_true]
  have hC : exApplicantC5.scores .conscientiousness = some 5 := rfl
  have hO : exApplicantC5.scores .openness = some 5 := rfl
  have hN : exApplicantC5.scores .neuroticism = some 1 := rfl
  rw [hC, hO, hN]
  norm_num

/-- Witness for C5's amended theorem at `exApplicantC5`. -/
theorem category_component_analytical_witness :
    category_component exApplicantC5 =
      8 * ((5 : ℚ) / 5) + 8 * ((5 : ℚ) / 5) + 4 * (1 - (1 : ℚ) / 5) :=
  category_component_analytical exApplicantC5 5 5 1 rfl rfl rfl (by decide)

/-! ## C7 -/

/-- Rule 1 condition of the category chain (src/app_interface.py line 823),
with the code's `.get(trait, 0)` defaults. -/
def ruleAnalytical (ts : TraitScores) : Prop :=
  4 ≤ (ts .conscientiousness).getD 0 ∧ 9 / 2 ≤ (ts .openness).getD 0 ∧
    (ts .neuroticism).getD 0 ≤ 5 / 2

/-- Rule 2 condition (line 825). -/
def ruleTechnical (ts : TraitScores) : Prop := 3 ≤ (ts .conscientiousness).getD 0

/-- Rule 3 condition (line 827). -/
def ruleSupport (ts : TraitScores) : Prop :=
  4 ≤ (ts .agreeableness).getD 0 ∧ 7 / 2 ≤ (ts .extraversion).getD 0

/-- Rule 4 condition (line 829). -/
def ruleWriting (ts : TraitScores) : Prop := 4 ≤ (ts .openness).getD 0

/-- Rule 5 condition (line 831). -/
def ruleInterpersonal (ts : TraitScores) : Prop := 4 ≤ (ts .extraversion).getD 0

/-- C7 (amended): the classifier is a first-match-wins decision list in the
fixed order Analytical, Technical, Support, Writing, Interpersonal, no
label (so each applicant receives at most one label); a missing trait is
read as 0, which fails every `≥` threshold of the rules (all are ≥ 3) but
*satisfies* the `Neuroticism ≤ 2.5` threshold of the Analytical rule. -/
theorem classify_applicant_decision_list :
    (∀ ts : TraitScores, classify_applicant ts = some .analytical ↔
      (presentValues ts).isEmpty = false ∧ ruleAnalytical ts) ∧
    (∀ ts : TraitScores, classify_applicant ts = some .technical ↔
      (presentValues ts).isEmpty = false ∧ ¬ ruleAnalytical ts ∧ ruleTechnical ts) ∧
    (∀ ts : TraitScores, classify_applicant ts = some .support ↔
      (presentValues ts).isEmpty = false ∧ ¬ ruleAnalytical ts ∧ ¬ ruleTechnical ts ∧
        ruleSupport ts) ∧
    (∀ ts : TraitScores, classify_applicant ts = some .writing ↔
      (presentValues ts).isEmpty = false ∧ ¬ ruleAnalytical ts ∧ ¬ ruleTechnical ts ∧
        ¬ ruleSupport ts ∧ ruleWriting ts) ∧
    (∀ ts : TraitScores, classify_applicant ts = some .interpersonal ↔
      (presentValues ts).isEmpty = false ∧ ¬ ruleAnalytical ts ∧ ¬ ruleTechnical ts ∧
        ¬ ruleSupport ts ∧ ¬ ruleWriting ts ∧ ruleInterpersonal ts) ∧
    (∀ (ts : TraitScores) (t : Trait), ts t = none → (ts t).getD 0 < 3) ∧
    (∀ ts : TraitScores, ts .neuroticism = none → (ts .neuroticism).getD 0 ≤ 5 / 2) := by
  refine ⟨?_, ?_, ?_, ?_, ?_, ?_, ?_⟩
  · intro ts
    simp only [classify_applicant, ruleAnalytical, ruleTechnical, ruleSupport,
      ruleWriting, ruleInterpersonal]
    split_ifs with h1 h2 h3 h4 h5 h6 <;>
      simp_all [-not_and, Bool.not_eq_true]
  · intro ts
    simp only [classify_applicant, ruleAnalytical, ruleTechnical, ruleSupport,
      ruleWriting, ruleInterpersonal]
    split_ifs with h1 h2 h3 h4 h5 h6 <;>
      simp_all [-not_and, Bool.not_eq_true]
  · intro ts
    simp only [classify_applicant, ruleAnalytical, ruleTechnical, ruleSupport,
      ruleWriting, ruleInterpersonal]
    split_ifs with h1 h2 h3 h4 h5 h6 <;>
      simp_all [-not_and, Bool.not_eq_true]
  · intro ts
    simp only [classify_applicant, ruleAnalytical, ruleTechnical, ruleSupport,
      ruleWriting, ruleInterpersonal]
    split_ifs with h1 h2 h3 h4 h5 h6 <;>
      simp_all [-not_and, Bool.not_eq_true]
  · intro ts
    simp only [classify_applicant, ruleAnalytical, ruleTechnical, ruleSupport,
      ruleWriting, ruleInterpersonal]
    split_ifs with h1 h2 h3 h4 h5 h6 <;>
      simp_all [-not_and, Bool.not_eq_true]
  · intro ts t h
    rw [h]
    norm_num
  · intro ts h
    rw [h]
    norm_num

/-- The TraitScores refuting C7's missing-trait rule: Conscientiousness = 4
and Openness = 5 present, Neuroticism absent. -/
def exTraitsC7 : TraitScores := fun t => match t with
  | .conscientiousness => some 4
  | .openness => some 5
  | _ => none

/-- C7 counterexample: with Neuroticism missing, the code classifies
`exTraitsC7` as Analytical (the absent trait defaults to 0, which satisfies
`N ≤ 2.5`), while the claim's missing-trait rule — absent traits fail every
threshold referencing them — would fall through to Technical. -/
theorem classify_applicant_missing_neuroticism :
    exTraitsC7 Trait.neuroticism = none ∧
    classify_applicant exTraitsC7 = some RoleCategory.analytical ∧
    classifySpecMissingFails exTraitsC7 = some RoleCategory.technical ∧
    some RoleCategory.analytical ≠ some RoleCategory.technical := by
  refine ⟨rfl, ?_, ?_, by simp⟩
  · rw [classify_applicant]
    rw [if_neg (by decide)]
    rw [if_pos (by constructor <;> norm_num [exTraitsC7])]
  · rw [classifySpecMissingFails]
    rw [if_neg (by decide)]
    rw [if_neg (by simp [meetsGE, meetsLE, exTraitsC7])]
    rw [if_pos (by norm_num [meetsGE, exTraitsC7])]

/-- Witness for C7's theorem: the decision-list reading classifies an
all-high profile as Analytical, and an absent Neuroticism satisfies its
`≤ 2.5` threshold. -/
theorem classify_applicant_decision_list_witness :
    classify_applicant exTraitsC7 = some RoleCategory.analytical ∧
    (((fun _ => none : TraitScores) Trait.neuroticism).getD 0 ≤ 5 / 2) :=
  ⟨(classify_applicant_decision_list.1 exTraitsC7).mpr
      ⟨by decide, by refine ⟨?_, ?_, ?_⟩ <;> norm_num [exTraitsC7]⟩,
    classify_applicant_decision_list.2.2.2.2.2.2 (fun _ => none) rfl⟩

/-! ## C8 -/

/-- C8: on any answer map with every question 1–30 answered,
`calculate_trait_scores` returns all five traits, each the mean of its 6
block answers rounded to 2 decimals; and a trait none of whose 6 questions
is answered is omitted (not defaulted to 0). -/
theorem calculate_trait_scores_full :
    (∀ answers : ℕ → Option ℤ, (∀ q, 1 ≤ q → q ≤ 30 → (answers q).isSome) →
      ∀ t, calculate_trait_scores answers t =
        some (round2
          (((((traitMappingCB t).map (fun q => (answers q).getD 0)).sum : ℤ) : ℚ) / 6))) ∧
    (∀ (answers : ℕ → Option ℤ) (t : Trait),
      (∀ q ∈ traitMappingCB t, answers q = none) →
      calculate_trait_scores answers t = none) := by
  constructor
  · intro answers h t
    have hall : ∀ q ∈ traitMappingCB t, (answers q).isSome := by
      intro q hq
      have h130 : 1 ≤ q ∧ q ≤ 30 := by
        cases t <;> simp only [traitMappingCB, List.mem_cons, List.not_mem_nil,
          or_false] at hq <;>
          rcases hq with rfl | rfl | rfl | rfl | rfl | rfl <;>
          exact ⟨by norm_num, by norm_num⟩
      exact h q h130.1 h130.2
    rw [calculate_trait_scores, traitAggregate]
    simp only [filterMap_of_all_isSome answers (traitMappingCB t) hall]
    have hlen : (traitMappingCB t).length = 6 := by cases t <;> rfl
    have hempty : (((traitMappingCB t).map (fun q => (answers q).getD 0)).isEmpty) = false := by
      cases t <;> rfl
    rw [hempty]
    simp only [Bool.false_eq_true, if_false, Option.some.injEq, List.length_map, hlen]
    norm_num
  · intro answers t h
    rw [calculate_trait_scores, traitAggregate]
    rw [List.filterMap_eq_nil_iff.mpr h]
    rfl

/-- The all-threes answer map used as C8's witness input. -/
def fullAnswers3 : ℕ → Option ℤ := fun q => if 1 ≤ q ∧ q ≤ 30 then some 3 else none

/-- Witness for C8 at the all-threes answer map and the all-unanswered map. -/
theorem calculate_trait_scores_full_witness :
    calculate_trait_scores fullAnswers3 Trait.openness =
      some (round2
        (((((traitMappingCB Trait.openness).map
          (fun q => (fullAnswers3 q).getD 0)).sum : ℤ) : ℚ) / 6)) ∧
    calculate_trait_scores (fun _ => none) Trait.openness = none :=
  ⟨calculate_trait_scores_full.1 fullAnswers3
      (fun q h1 h2 => by simp [fullAnswers3, h1, h2]) Trait.openness,
    calculate_trait_scores_full.2 (fun _ => none) Trait.openness (fun q _ => rfl)⟩

/-! ## C1 -/

theorem round2_nonneg {x : ℚ} (h : 0 ≤ x) : 0 ≤ round2 x := by
  have h0 : ((0 : ℤ) : ℚ) ≤ x := by exact_mod_cast h
  simpa using le_round2_of_le h0

theorem round2_le_nat {x : ℚ} (n : ℕ) (h : x ≤ (n : ℚ)) : round2 x ≤ (n : ℚ) := by
  have h1 := round2_le_of_le (n := (n : ℤ)) (by push_cast; linarith)
  push_cast at h1
  linarith

theorem personality_component_bounds {a : Applicant}
    (h : ∀ t v, a.scores t = some v → 1 ≤ v ∧ v ≤ 5) :
    0 ≤ personality_component a ∧ personality_component a ≤ 25 := by
  rw [personality_component]
  split_ifs with h1
  · norm_num
  · have hm := mean_bounds (by simp [h1]) (presentValues_mem_bounds h)
    constructor
    · nlinarith [hm.1, hm.2]
    · nlinarith [hm.1, hm.2]

theorem category_component_bounds {a : Applicant}
    (h : ∀ t v, a.scores t = some v → 1 ≤ v ∧ v ≤ 5) :
    0 ≤ category_component a ∧ category_component a ≤ 20 := by
  have hC := getD_zero_bounds h .conscientiousness
  have hO := getD_zero_bounds h .openness
  have hE := getD_zero_bounds h .extraversion
  have hA := getD_zero_bounds h .agreeableness
  have hN5 := getD_five_bounds h .neuroticism
  rw [category_component]
  split_ifs with h1 h2 h3 h4 h5 h6
  · norm_num
  · constructor <;> nlinarith [hC.1, hC.2, hO.1, hO.2, hN5.1, hN5.2]
  · constructor <;> nlinarith [hC.1, hC.2, hO.1, hO.2]
  · constructor <;> nlinarith [hA.1, hA.2, hE.1, hE.2]
  · constructor <;> nlinarith [hC.1, hC.2, hO.1, hO.2]
  · constructor <;> nlinarith [hA.1, hA.2, hE.1, hE.2]
  · have hne : (presentValues a.scores).isEmpty = false := by
      simp only [Bool.or_eq_true, not_or, Bool.not_eq_true] at h1
      exact h1.1
    have hm := mean_bounds (by simp [hne]) (presentValues_mem_bounds h)
    constructor
    · nlinarith [hm.1, hm.2]
    · nlinarith [hm.1, hm.2]

theorem skill_component_bounds (requiredHard requiredSoft : List String)
    (a : Applicant)
    (hm : (matchedSkills (requiredHard ++ requiredSoft)
        (a.hard_skills ++ a.soft_skills)).length ≤ (requiredHard ++ requiredSoft).length) :
    0 ≤ (skill_component requiredHard requiredSoft a).1 ∧
      (skill_component requiredHard requiredSoft a).1 ≤ 35 := by
  have hkey : (!(requiredHard ++ requiredSoft).isEmpty) = true →
      0 < ((requiredHard ++ requiredSoft).length : ℚ) := by
    intro h2
    have hne : (requiredHard ++ requiredSoft) ≠ [] := by
      intro hnil
      rw [hnil] at h2
      simp at h2
    have := List.length_pos.mpr hne
    exact_mod_cast this
  simp only [skill_component]
  split_ifs with h1 h2 h3
  · dsimp only
    have hrpos := hkey h2
    have hdiv : ((matchedSkills (requiredHard ++ requiredSoft)
        (a.hard_skills ++ a.soft_skills)).length : ℚ) /
        ((requiredHard ++ requiredSoft).length : ℚ) ≤ 1 := by
      rw [div_le_one hrpos]
      exact_mod_cast hm
    have hdiv0 : 0 ≤ ((matchedSkills (requiredHard ++ requiredSoft)
        (a.hard_skills ++ a.soft_skills)).length : ℚ) /
        ((requiredHard ++ requiredSoft).length : ℚ) := by positivity
    have hadd0 : (0 : ℚ) ≤ min (((additionalSkills (requiredHard ++ requiredSoft)
        (a.hard_skills ++ a.soft_skills)).length : ℚ) * (1 / 2)) 10 :=
      le_min (by positivity) (by norm_num)
    have hadd10 : min (((additionalSkills (requiredHard ++ requiredSoft)
        (a.hard_skills ++ a.soft_skills)).length : ℚ) * (1 / 2)) 10 ≤ 10 :=
      min_le_right _ _
    constructor <;> nlinarith
  · dsimp only
    have hrpos := hkey h2
    have hdiv : ((matchedSkills (requiredHard ++ requiredSoft)
        (a.hard_skills ++ a.soft_skills)).length : ℚ) /
        ((requiredHard ++ requiredSoft).length : ℚ) ≤ 1 := by
      rw [div_le_one hrpos]
      exact_mod_cast hm
    have hdiv0 : 0 ≤ ((matchedSkills (requiredHard ++ requiredSoft)
        (a.hard_skills ++ a.soft_skills)).length : ℚ) /
        ((requiredHard ++ requiredSoft).length : ℚ) := by positivity
    have hadd0 : (0 : ℚ) ≤ min (((additionalSkills (requiredHard ++ requiredSoft)
        (a.hard_skills ++ a.soft_skills)).length : ℚ) * (1 / 2)) 10 :=
      le_min (by positivity) (by norm_num)
    have hadd10 : min (((additionalSkills (requiredHard ++ requiredSoft)
        (a.hard_skills ++ a.soft_skills)).length : ℚ) * (1 / 2)) 10 ≤ 10 :=
      min_le_right _ _
    constructor <;> nlinarith
  · dsimp only
    exact ⟨le_min (by positivity) (by norm_num), min_le_right _ _⟩
  · norm_num

theorem experience_component_bounds {a : Applicant} (hy : 0 ≤ a.years_experience) :
    0 ≤ experience_component a ∧ experience_component a ≤ 20 := by
  rw [experience_component]
  have hd : a.years_experience / 10 * 10 = a.years_experience := by ring
  rw [hd]
  have h1 : (0 : ℚ) ≤ min a.years_experience 10 := le_min hy (by norm_num)
  have h2 : min a.years_experience 10 ≤ 10 := min_le_right _ _
  constructor <;> split_ifs <;> linarith

/-- C1 (amended): the total returned by `calculate_overall_fit_score` is
the 2-decimal rounding of `personality + category_fit + skill_match +
experience` (the unrounded components; the breakdown records each rounded
separately).  For trait values in [1,5] and non-negative years,
`personality ∈ [0,25]`, `category_fit ∈ [0,20]` and `experience ∈ [0,20]`
hold unconditionally, but `skill_match ∈ [0,35]` — and hence
`total ∈ [0,100]` — holds only when the number of matched applicant skills
does not exceed the number of required skills; the matched list counts
*applicant* skills, so case-variant duplicates can push `skill_match` to 45
and the total above 100. -/
theorem calculate_overall_fit_score_bounds :
    ∀ (requiredHard requiredSoft : List String) (a : Applicant),
      (∀ t v, a.scores t = some v → 1 ≤ v ∧ v ≤ 5) →
      0 ≤ a.years_experience →
      ((calculate_overall_fit_score requiredHard requiredSoft a).1 =
          round2 (personality_component a + category_component a +
            (skill_component requiredHard requiredSoft a).1 + experience_component a) ∧
        0 ≤ (fit_breakdown requiredHard requiredSoft a).personality ∧
        (fit_breakdown requiredHard requiredSoft a).personality ≤ 25 ∧
        0 ≤ (fit_breakdown requiredHard requiredSoft a).category_fit ∧
        (fit_breakdown requiredHard requiredSoft a).category_fit ≤ 20 ∧
        0 ≤ (fit_breakdown requiredHard requiredSoft a).experience ∧
        (fit_breakdown requiredHard requiredSoft a).experience ≤ 20 ∧
        ((matchedSkills (requiredHard ++ requiredSoft)
              (a.hard_skills ++ a.soft_skills)).length ≤
            (requiredHard ++ requiredSoft).length →
          0 ≤ (fit_breakdown requiredHard requiredSoft a).skill_match ∧
          (fit_breakdown requiredHard requiredSoft a).skill_match ≤ 35 ∧
          0 ≤ (calculate_overall_fit_score requiredHard requiredSoft a).1 ∧
          (calculate_overall_fit_score requiredHard requiredSoft a).1 ≤ 100)) := by
  intro rh rs a htraits hy
  have hp := personality_component_bounds htraits
  have hc := category_component_bounds htraits
  have he := experience_component_bounds hy
  refine ⟨rfl, ?_, ?_, ?_, ?_, ?_, ?_, ?_⟩
  · exact round2_nonneg hp.1
  · simpa using round2_le_nat 25 (by simpa using hp.2)
  · exact round2_nonneg hc.1
  · simpa using round2_le_nat 20 (by simpa using hc.2)
  · exact round2_nonneg he.1
  · simpa using round2_le_nat 20 (by simpa using he.2)
  · intro hmle
    have hs := skill_component_bounds rh rs a hmle
    refine ⟨round2_nonneg hs.1, by simpa using round2_le_nat 35 (by simpa using hs.2),
      round2_nonneg (by linarith [hp.1, hc.1, hs.1, he.1]), ?_⟩
    simpa using round2_le_nat 100 (by push_cast; linarith [hp.2, hc.2, hs.2, he.2])

/-- The applicant refuting C1's caps: all traits 5, hard skill "Python" and
soft skill "python" against the single required skill "python", applying to
`DataAnalyst` with a declared field and 10 years of experience. -/
def exApplicantC1 : Applicant :=
  { scores := fun _ => some 5
    hard_skills := ["Python"]
    soft_skills := ["python"]
    JobOccupation := some "DataAnalyst"
    job_field := some "Data"
    years_experience := 10
    score_breakdown := none }

/-- C1 counterexample: `exApplicantC1` satisfies the claim's preconditions
(trait values in [1,5], years ≥ 0), yet its skill_match component is 45
(matched counts *applicant* skills — here both case variants of "python" —
so `matched_score = 2/1·20 = 40`, plus the proficiency bonus 5) and its
total is 106: the claimed caps `skill_match ≤ 35` and `total ≤ 100` fail. -/
theorem fit_score_exceeds_bounds :
    (∀ t v, exApplicantC1.scores t = some v → 1 ≤ v ∧ v ≤ 5) ∧
    0 ≤ exApplicantC1.years_experience ∧
    (fit_breakdown ["python"] [] exApplicantC1).skill_match = 45 ∧
    (calculate_overall_fit_score ["python"] [] exApplicantC1).1 = 106 ∧
    ¬ ((fit_breakdown ["python"] [] exApplicantC1).skill_match ≤ 35) ∧
    ¬ ((calculate_overall_fit_score ["python"] [] exApplicantC1).1 ≤ 100) := by
  have hp : personality_component exApplicantC1 = 25 := by
    have hpv : presentValues exApplicantC1.scores = [5, 5, 5, 5, 5] := rfl
    simp only [personality_component, hpv]
    norm_num
  have hc : category_component exApplicantC1 = 16 := by
    have hne : (presentValues exApplicantC1.scores).isEmpty = false := rfl
    have hjob : (normalizedJob exApplicantC1 == "") = false := by decide
    have hrole : analytical_roles.contains (normalizedJob exApplicantC1) = true := by
      decide
    rw [category_component]
    simp only [hne, hjob, Bool.or_self, Bool.false_eq_true, if_false, hrole, if_true]
    have hC : exApplicantC1.scores .conscientiousness = some 5 := rfl
    have hO : exApplicantC1.scores .openness = some 5 := rfl
    have hN : exApplicantC1.scores .neuroticism = some 5 := rfl
    rw [hC, hO, hN]
    norm_num
  have hs : (skill_component ["python"] [] exApplicantC1).1 = 45 := by
    have hmatched : matchedSkills (["python"] ++ [])
        (exApplicantC1.hard_skills ++ exApplicantC1.soft_skills) =
        ["Python", "python"] := by decide
    have hadd : additionalSkills (["python"] ++ [])
        (exApplicantC1.hard_skills ++ exApplicantC1.soft_skills) = [] := by decide
    simp only [skill_component]
    rw [if_pos (by decide : pyTruthy exApplicantC1.JobOccupation = true)]
    rw [if_pos (by decide : (!((["python"] ++ [] : List String)).isEmpty) = true)]
    dsimp only
    rw [hmatched, hadd]
    rw [if_pos (by norm_num)]
    norm_num
  have he : experience_component exApplicantC1 = 20 := by
    rw [experience_component]
    rw [if_pos ⟨by norm_num [exApplicantC1], by decide, by decide⟩]
    norm_num [exApplicantC1]
  refine ⟨?_, by norm_num [exApplicantC1], ?_, ?_, ?_, ?_⟩
  · intro t v h
    have h5 : some (5 : ℚ) = some v := h
    have : (5 : ℚ) = v := by injection h5
    subst this
    norm_num
  · simp only [fit_breakdown]
    rw [hs]
    norm_num [round2, round_eq]
  · simp only [calculate_overall_fit_score]
    rw [hp, hc, hs, he]
    norm_num [round2, round_eq]
  · simp only [fit_breakdown]
    rw [hs]
    norm_num [round2, round_eq]
  · simp only [calculate_overall_fit_score]
    rw [hp, hc, hs, he]
    norm_num [round2, round_eq]

/-- The empty applicant used as C1's witness input. -/
def exApplicantW1 : Applicant :=
  { scores := fun _ => none
    hard_skills := []
    soft_skills := []
    JobOccupation := none
    job_field := none
    years_experience := 0
    score_breakdown := none }

/-- Witness for C1's amended theorem at the empty applicant. -/
theorem calculate_overall_fit_score_bounds_witness :
    0 ≤ (calculate_overall_fit_score [] [] exApplicantW1).1 ∧
    (calculate_overall_fit_score [] [] exApplicantW1).1 ≤ 100 :=
  ((calculate_overall_fit_score_bounds [] [] exApplicantW1
      (fun _ _ h => nomatch h) (le_refl 0)).2.2.2.2.2.2.2
    (by decide)).2.2

/-- Witness for C6's theorem at a 10-year applicant with declared field and
job, and at the zero-experience applicant without a field. -/
theorem experience_component_spec_witness :
    (experience_component exApplicantC1 =
        min exApplicantC1.years_experience 10 +
          (if 1 ≤ exApplicantC1.years_experience ∧ pyTruthy exApplicantC1.job_field ∧
              pyTruthy exApplicantC1.JobOccupation
            then 10 else if 2 ≤ exApplicantC1.years_experience then 5 else 0) ∧
      0 ≤ experience_component exApplicantC1 ∧
      experience_component exApplicantC1 ≤ 20) ∧
    experience_component exApplicantW1 = 0 :=
  ⟨experience_component_spec.1 exApplicantC1 (by norm_num [exApplicantC1]),
    experience_component_spec.2 exApplicantW1 rfl rfl⟩
